import Mathlib

/-!
Shallow embedding of the calendar-booking / stake-resolution module
(`src/handlers/execute.rs`, `src/handlers/instantiate.rs`).

Modelling conventions:
* `Uint128` amounts are `Nat` (all claim-relevant arithmetic stays far below 2^128).
* `Int64` / `i64` timestamps are `Int`.
* chrono's `FixedOffset` local-time conversion: for a fixed offset `off` and a
  Unix timestamp `t`, the local naive datetime has second count `t + off`;
  its time-of-day is `(t + off) % 86400` and its date, counted in days from
  the epoch, is `(t + off) / 86400` (chrono computes dates with Euclidean
  division, which for the positive divisor 86400 is floor division).
* `NaiveDateTime::timestamp` interprets a naive datetime as UTC, so the
  `start_of_day_timestamp` key computed by `request_meeting` is
  `((t + off) / 86400) * 86400`.
* `timestamp_opt(t, 0)` on a `FixedOffset` yields `LocalResult::Single`
  exactly when `t` is within chrono's representable range
  (`NaiveDate::MIN..=NaiveDate::MAX`, i.e. `-8334601228800 ≤ t ≤ 8210266876799`);
  otherwise the code returns `InvalidTime`.
* Rust's truncating `i64` division `/` is `Int.tdiv`; the `as u32` cast is
  `% 2^32` (two's-complement low 32 bits) followed by `Int.toNat`.
* `must_pay` (cw_utils) is modelled as requiring a nonzero attached amount of
  the configured denom; the attached amount is passed in directly as a `Nat`.
* `FixedOffset::east_opt(config.utc_offset).unwrap()` panics unless
  `-86400 < utc_offset < 86400` (`offsetValid` records that domain); the model
  is total in the offset and does not represent this panic.  All concrete
  witnesses use valid offsets.
* cosmwasm's `multiply_ratio` panics on a zero denominator; the model uses
  total `Nat` division (`x / 0 = 0`).  The zero-denominator case is shown
  unreachable for meetings created by `request_meeting`.
-/

/-- Contract configuration (`state.rs::Config`): `start_time` / `end_time` are
local times of day stored as seconds-of-day (the source's `Time` values convert
into `chrono::NaiveTime`). -/
structure Config where
  price_per_minute : Nat
  utc_offset : Int
  start_time : Nat
  end_time : Nat
  denom : String
  deriving DecidableEq, Repr

/-- One booked slot (`state.rs::Meeting`). -/
structure Meeting where
  start_time : Int
  end_time : Int
  requester : String
  amount_staked : Nat
  deriving DecidableEq, Repr

instance : Inhabited Meeting := ⟨⟨0, 0, "", 0⟩⟩

/-- A `BankMsg::Send` payout instruction with a single coin. -/
structure BankMsg where
  to_address : String
  amount : Nat
  denom : String
  deriving DecidableEq, Repr

/-- The contract's persisted state: the singleton `CONFIG`, the `CALENDAR`
map from day-key to Day Bucket, and the admin identity set at instantiation. -/
structure State where
  config : Config
  calendar : Int → Option (List Meeting)
  admin : String

/-- Error kinds of `error.rs::AppError` reachable from the embedded handlers,
plus the `PaymentError` that `must_pay` propagates through `?`. -/
inductive AppError where
  | PaymentNoFunds
  | InvalidTime
  | StartAndEndTimeNotOnSameDay
  | StartTimeNotRoundedToNearestMinute
  | EndTimeNotRoundedToNearestMinute
  | StartTimeMustBeInFuture
  | EndTimeMustBeAfterStartTime
  | StartTimeDoesNotFallWithinCalendarBounds
  | EndTimeDoesNotFallWithinCalendarBounds
  | InvalidStakeAmountSent (expected_amount : Nat)
  | MeetingConflictExists
  | Unauthorized
  | NoMeetingsAtGivenDayDateTime
  | MeetingDoesNotExist
  | MeetingNotFinishedYet
  | StakeAlreadyHandled
  | MinutesLateCannotExceedDurationOfMeeting
  deriving DecidableEq, Repr

/-- The three resolution actions (`execute.rs::StakeAction`). -/
inductive StakeAction where
  | Return
  | FullSlash
  | PartialSlash (minutes_late : Nat)
  deriving DecidableEq, Repr

/-- chrono representability: `FixedOffset::timestamp_opt(t, 0)` is
`LocalResult::Single` iff the timestamp lies between the timestamps of
`NaiveDate::MIN` midnight and `NaiveDate::MAX` end of day. -/
def inChronoRange (t : Int) : Prop :=
  -8334601228800 ≤ t ∧ t ≤ 8210266876799

instance (t : Int) : Decidable (inChronoRange t) := by
  unfold inChronoRange; infer_instance

/-- Local second-of-day of timestamp `t` under fixed offset `off`
(`DateTime::<FixedOffset>::time()` as a second count; nanoseconds are 0). -/
def sodOf (off t : Int) : Int := (t + off) % 86400

/-- Local date of timestamp `t` under `off`, as days from the epoch
(`DateTime::<FixedOffset>::date_naive()`). -/
def localDay (off t : Int) : Int := (t + off) / 86400

/-- The day-bucket key computed by `request_meeting`:
`date_naive().and_time(NaiveTime::default()).timestamp()`, i.e. the local
naive midnight re-interpreted as a UTC instant. -/
def startOfDayTimestamp (off t : Int) : Int := localDay off t * 86400

/-- `FixedOffset::east_opt` succeeds exactly on this range. -/
def offsetValid (off : Int) : Prop := -86400 < off ∧ off < 86400

instance (off : Int) : Decidable (offsetValid off) := by
  unfold offsetValid; infer_instance

/-- The overlap test of `request_meeting`'s conflict loop, verbatim from the
source: reject when `meeting.start_time <= new_start < meeting.end_time`
or `meeting.start_time < new_end <= meeting.end_time`. -/
def conflictsWith (newStart newEnd : Int) (m : Meeting) : Bool :=
  (decide (m.start_time ≤ newStart) && decide (newStart < m.end_time)) ||
  (decide (m.start_time < newEnd) && decide (newEnd ≤ m.end_time))

/-- `(meeting_end_time - meeting_start_time).num_minutes()` cast to `u128`:
the whole-minute count between the two local times of day (truncating
division, matching chrono's `Duration::num_minutes`). -/
def durationMinutes (off a b : Int) : Nat :=
  ((sodOf off b - sodOf off a).tdiv 60).toNat

/-- The Day Bucket stored under key `k` (`may_load(...).unwrap_or_default()`). -/
def dayBucket (s : State) (k : Int) : List Meeting :=
  (s.calendar k).getD []

/-- The state after persisting bucket `ms` under key `k` (`CALENDAR.save`). -/
def saveBucket (s : State) (k : Int) (ms : List Meeting) : State :=
  { s with calendar := fun kk => if kk = k then some ms else s.calendar kk }

/-- The `Meeting` record pushed by `request_meeting` on success. -/
def newMeeting (sender : String) (amount_sent : Nat) (a b : Int) : Meeting :=
  { start_time := a, end_time := b, requester := sender, amount_staked := amount_sent }

/-- `execute.rs::request_meeting`.  Arguments: contract state, message sender,
attached payment amount (in `config.denom`, as extracted by `must_pay`),
`env.block.time.seconds()`, and the requested absolute start/end timestamps
`a` / `b`. -/
def request_meeting (s : State) (sender : String) (amount_sent : Nat)
    (now : Nat) (a b : Int) : Except AppError State :=
  if amount_sent = 0 then .error .PaymentNoFunds else
  if ¬ inChronoRange a then .error .InvalidTime else
  if ¬ inChronoRange b then .error .InvalidTime else
  if localDay s.config.utc_offset a ≠ localDay s.config.utc_offset b then
    .error .StartAndEndTimeNotOnSameDay else
  if (sodOf s.config.utc_offset a) % 60 ≠ 0 then
    .error .StartTimeNotRoundedToNearestMinute else
  if (sodOf s.config.utc_offset b) % 60 ≠ 0 then
    .error .EndTimeNotRoundedToNearestMinute else
  if (now : Int) > a then .error .StartTimeMustBeInFuture else
  if sodOf s.config.utc_offset a ≥ sodOf s.config.utc_offset b then
    .error .EndTimeMustBeAfterStartTime else
  if sodOf s.config.utc_offset a < (s.config.start_time : Int) ∨
     sodOf s.config.utc_offset a > (s.config.end_time : Int) then
    .error .StartTimeDoesNotFallWithinCalendarBounds else
  if sodOf s.config.utc_offset b < (s.config.start_time : Int) ∨
     sodOf s.config.utc_offset b > (s.config.end_time : Int) then
    .error .EndTimeDoesNotFallWithinCalendarBounds else
  if amount_sent ≠ durationMinutes s.config.utc_offset a b * s.config.price_per_minute then
    .error (.InvalidStakeAmountSent
      (durationMinutes s.config.utc_offset a b * s.config.price_per_minute)) else
  if (dayBucket s (startOfDayTimestamp s.config.utc_offset a)).any (conflictsWith a b) then
    .error .MeetingConflictExists else
  .ok (saveBucket s (startOfDayTimestamp s.config.utc_offset a)
        (dayBucket s (startOfDayTimestamp s.config.utc_offset a) ++
          [newMeeting sender amount_sent a b]))

/-- The `as u32` narrowing applied to the `i64` minute count in the
`PartialSlash` branch. -/
def asU32 (x : Int) : Nat := (x % 4294967296).toNat

/-- The meeting-duration divisor computed in the `PartialSlash` branch:
`((meeting.end_time - meeting.start_time) / 60) as u32`. -/
def storedDurationMinutes (m : Meeting) : Nat :=
  asU32 ((m.end_time - m.start_time).tdiv 60)

/-- The state after a successful resolution: the addressed meeting's
`amount_staked` zeroed in place and the bucket saved back. -/
def resolvedState (s : State) (day : Int) (meetings : List Meeting) (i : Nat) : State :=
  saveBucket s day
    (meetings.set i { meetings.getD i default with amount_staked := 0 })

/-- `execute.rs::handle_stake`.  Returns the updated state together with the
emitted `BankMsg::Send` payout instructions.  In the source the meeting is
mutated in place before the action match and the bucket is saved after it;
on the `PartialSlash` validation error the function returns before saving,
so no mutation is persisted — the model reflects the persisted outcomes. -/
def handle_stake (s : State) (sender : String) (now : Nat)
    (day_datetime : Int) (meeting_index : Nat) (stake_action : StakeAction) :
    Except AppError (State × List BankMsg) :=
  if sender ≠ s.admin then .error .Unauthorized else
  match s.calendar day_datetime with
  | none => .error .NoMeetingsAtGivenDayDateTime
  | some meetings =>
    if meetings.length ≤ meeting_index then .error .MeetingDoesNotExist else
    if (now : Int) ≤ (meetings.getD meeting_index default).end_time then
      .error .MeetingNotFinishedYet else
    if (meetings.getD meeting_index default).amount_staked = 0 then
      .error .StakeAlreadyHandled else
    match stake_action with
    | .Return =>
      .ok (resolvedState s day_datetime meetings meeting_index,
        [⟨(meetings.getD meeting_index default).requester,
          (meetings.getD meeting_index default).amount_staked, s.config.denom⟩])
    | .FullSlash =>
      .ok (resolvedState s day_datetime meetings meeting_index,
        [⟨s.admin, (meetings.getD meeting_index default).amount_staked, s.config.denom⟩])
    | .PartialSlash minutes_late =>
      if minutes_late > storedDurationMinutes (meetings.getD meeting_index default) then
        .error .MinutesLateCannotExceedDurationOfMeeting
      else
        .ok (resolvedState s day_datetime meetings meeting_index,
          [⟨(meetings.getD meeting_index default).requester,
            (meetings.getD meeting_index default).amount_staked -
              (meetings.getD meeting_index default).amount_staked * minutes_late /
                storedDurationMinutes (meetings.getD meeting_index default),
            s.config.denom⟩,
           ⟨s.admin,
            (meetings.getD meeting_index default).amount_staked * minutes_late /
              storedDurationMinutes (meetings.getD meeting_index default),
            s.config.denom⟩])

/-- States reachable from an empty calendar by successful `request_meeting`
operations (the configuration and admin are fixed at instantiation). -/
inductive ReachableCal : State → Prop where
  | init (cfg : Config) (admin : String) :
      ReachableCal ⟨cfg, fun _ => none, admin⟩
  | step (s s' : State) (sender : String) (amount_sent now : Nat)
      (a b : Int) :
      ReachableCal s →
      request_meeting s sender amount_sent now a b = .ok s' →
      ReachableCal s'

/-- Two half-open intervals `[s1, e1)` and `[s2, e2)` overlap. -/
def intervalsOverlap (s1 e1 s2 e2 : Int) : Prop :=
  max s1 s2 < min e1 e2

instance (s1 e1 s2 e2 : Int) : Decidable (intervalsOverlap s1 e1 s2 e2) := by
  unfold intervalsOverlap; infer_instance

/-- The spec's ordered validation list (§4.1 steps 1-8): the error of the
first failing check, or `none` when every check passes.  Written from the
spec's wording, to be compared with `request_meeting`. -/
def firstFailingCheck (s : State) (amount_sent : Nat)
    (now : Nat) (a b : Int) : Option AppError :=
  if ¬ inChronoRange a then some .InvalidTime else
  if ¬ inChronoRange b then some .InvalidTime else
  if localDay s.config.utc_offset a ≠ localDay s.config.utc_offset b then
    some .StartAndEndTimeNotOnSameDay else
  if (sodOf s.config.utc_offset a) % 60 ≠ 0 then
    some .StartTimeNotRoundedToNearestMinute else
  if (sodOf s.config.utc_offset b) % 60 ≠ 0 then
    some .EndTimeNotRoundedToNearestMinute else
  if (now : Int) > a then some .StartTimeMustBeInFuture else
  if sodOf s.config.utc_offset a ≥ sodOf s.config.utc_offset b then
    some .EndTimeMustBeAfterStartTime else
  if sodOf s.config.utc_offset a < (s.config.start_time : Int) ∨
     sodOf s.config.utc_offset a > (s.config.end_time : Int) then
    some .StartTimeDoesNotFallWithinCalendarBounds else
  if sodOf s.config.utc_offset b < (s.config.start_time : Int) ∨
     sodOf s.config.utc_offset b > (s.config.end_time : Int) then
    some .EndTimeDoesNotFallWithinCalendarBounds else
  if amount_sent ≠ durationMinutes s.config.utc_offset a b * s.config.price_per_minute then
    some (.InvalidStakeAmountSent
      (durationMinutes s.config.utc_offset a b * s.config.price_per_minute)) else
  if (dayBucket s (startOfDayTimestamp s.config.utc_offset a)).any (conflictsWith a b) then
    some .MeetingConflictExists else
  none

/-- The named validation conditions of `request_meeting`, in positive form. -/
def checksPass (s : State) (amount_sent : Nat) (now : Nat) (a b : Int) : Prop :=
  inChronoRange a ∧ inChronoRange b ∧
  localDay s.config.utc_offset a = localDay s.config.utc_offset b ∧
  (sodOf s.config.utc_offset a) % 60 = 0 ∧
  (sodOf s.config.utc_offset b) % 60 = 0 ∧
  (now : Int) ≤ a ∧
  sodOf s.config.utc_offset a < sodOf s.config.utc_offset b ∧
  (s.config.start_time : Int) ≤ sodOf s.config.utc_offset a ∧
  sodOf s.config.utc_offset a ≤ (s.config.end_time : Int) ∧
  (s.config.start_time : Int) ≤ sodOf s.config.utc_offset b ∧
  sodOf s.config.utc_offset b ≤ (s.config.end_time : Int) ∧
  amount_sent = durationMinutes s.config.utc_offset a b * s.config.price_per_minute ∧
  (dayBucket s (startOfDayTimestamp s.config.utc_offset a)).any (conflictsWith a b) = false

/-- The state produced by a successful request. -/
def acceptedState (s : State) (sender : String) (amount_sent : Nat) (a b : Int) : State :=
  saveBucket s (startOfDayTimestamp s.config.utc_offset a)
    (dayBucket s (startOfDayTimestamp s.config.utc_offset a) ++
      [newMeeting sender amount_sent a b])

theorem request_meeting_cases (s : State) (sender : String) (amount_sent now : Nat)
    (a b : Int) (h : amount_sent ≠ 0) :
    request_meeting s sender amount_sent now a b =
      match firstFailingCheck s amount_sent now a b with
      | some e => .error e
      | none => .ok (acceptedState s sender amount_sent a b) := by
  unfold request_meeting firstFailingCheck acceptedState
  rw [if_neg h]
  by_cases h1 : ¬ inChronoRange a
  case pos => rw [if_pos h1, if_pos h1]
  case neg =>
  rw [if_neg h1, if_neg h1]
  by_cases h2 : ¬ inChronoRange b
  case pos => rw [if_pos h2, if_pos h2]
  case neg =>
  rw [if_neg h2, if_neg h2]
  by_cases h3 : localDay s.config.utc_offset a ≠ localDay s.config.utc_offset b
  case pos => rw [if_pos h3, if_pos h3]
  case neg =>
  rw [if_neg h3, if_neg h3]
  by_cases h4 : (sodOf s.config.utc_offset a) % 60 ≠ 0
  case pos => rw [if_pos h4, if_pos h4]
  case neg =>
  rw [if_neg h4, if_neg h4]
  by_cases h5 : (sodOf s.config.utc_offset b) % 60 ≠ 0
  case pos => rw [if_pos h5, if_pos h5]
  case neg =>
  rw [if_neg h5, if_neg h5]
  by_cases h6 : (now : Int) > a
  case pos => rw [if_pos h6, if_pos h6]
  case neg =>
  rw [if_neg h6, if_neg h6]
  by_cases h7 : sodOf s.config.utc_offset a ≥ sodOf s.config.utc_offset b
  case pos => rw [if_pos h7, if_pos h7]
  case neg =>
  rw [if_neg h7, if_neg h7]
  by_cases h8 : sodOf s.config.utc_offset a < (s.config.start_time : Int) ∨
      sodOf s.config.utc_offset a > (s.config.end_time : Int)
  case pos => rw [if_pos h8, if_pos h8]
  case neg =>
  rw [if_neg h8, if_neg h8]
  by_cases h9 : sodOf s.config.utc_offset b < (s.config.start_time : Int) ∨
      sodOf s.config.utc_offset b > (s.config.end_time : Int)
  case pos => rw [if_pos h9, if_pos h9]
  case neg =>
  rw [if_neg h9, if_neg h9]
  by_cases h10 : amount_sent ≠ durationMinutes s.config.utc_offset a b * s.config.price_per_minute
  case pos => rw [if_pos h10, if_pos h10]
  case neg =>
  rw [if_neg h10, if_neg h10]
  by_cases h11 : (dayBucket s (startOfDayTimestamp s.config.utc_offset a)).any (conflictsWith a b) = true
  case pos => rw [if_pos h11, if_pos h11]
  case neg =>
  rw [if_neg h11, if_neg h11]

theorem firstFailingCheck_none_iff (s : State) (amount_sent now : Nat) (a b : Int) :
    firstFailingCheck s amount_sent now a b = none ↔
      checksPass s amount_sent now a b := by
  unfold firstFailingCheck checksPass
  by_cases h1 : ¬ inChronoRange a
  case pos =>
    rw [if_pos h1]
    simp only [reduceCtorEq, false_iff]
    rintro ⟨c1, -⟩; exact h1 c1
  case neg =>
  rw [if_neg h1]
  by_cases h2 : ¬ inChronoRange b
  case pos =>
    rw [if_pos h2]
    simp only [reduceCtorEq, false_iff]
    rintro ⟨-, c2, -⟩; exact h2 c2
  case neg =>
  rw [if_neg h2]
  by_cases h3 : localDay s.config.utc_offset a ≠ localDay s.config.utc_offset b
  case pos =>
    rw [if_pos h3]
    simp only [reduceCtorEq, false_iff]
    rintro ⟨-, -, c3, -⟩; exact h3 c3
  case neg =>
  rw [if_neg h3]
  by_cases h4 : (sodOf s.config.utc_offset a) % 60 ≠ 0
  case pos =>
    rw [if_pos h4]
    simp only [reduceCtorEq, false_iff]
    rintro ⟨-, -, -, c4, -⟩; exact h4 c4
  case neg =>
  rw [if_neg h4]
  by_cases h5 : (sodOf s.config.utc_offset b) % 60 ≠ 0
  case pos =>
    rw [if_pos h5]
    simp only [reduceCtorEq, false_iff]
    rintro ⟨-, -, -, -, c5, -⟩; exact h5 c5
  case neg =>
  rw [if_neg h5]
  by_cases h6 : (now : Int) > a
  case pos =>
    rw [if_pos h6]
    simp only [reduceCtorEq, false_iff]
    rintro ⟨-, -, -, -, -, c6, -⟩; omega
  case neg =>
  rw [if_neg h6]
  by_cases h7 : sodOf s.config.utc_offset a ≥ sodOf s.config.utc_offset b
  case pos =>
    rw [if_pos h7]
    simp only [reduceCtorEq, false_iff]
    rintro ⟨-, -, -, -, -, -, c7, -⟩; omega
  case neg =>
  rw [if_neg h7]
  by_cases h8 : sodOf s.config.utc_offset a < (s.config.start_time : Int) ∨
      sodOf s.config.utc_offset a > (s.config.end_time : Int)
  case pos =>
    rw [if_pos h8]
    simp only [reduceCtorEq, false_iff]
    rintro ⟨-, -, -, -, -, -, -, c8a, c8b, -⟩
    rcases h8 with h8 | h8 <;> omega
  case neg =>
  rw [if_neg h8]
  by_cases h9 : sodOf s.config.utc_offset b < (s.config.start_time : Int) ∨
      sodOf s.config.utc_offset b > (s.config.end_time : Int)
  case pos =>
    rw [if_pos h9]
    simp only [reduceCtorEq, false_iff]
    rintro ⟨-, -, -, -, -, -, -, -, -, c9a, c9b, -⟩
    rcases h9 with h9 | h9 <;> omega
  case neg =>
  rw [if_neg h9]
  by_cases h10 : amount_sent ≠ durationMinutes s.config.utc_offset a b * s.config.price_per_minute
  case pos =>
    rw [if_pos h10]
    simp only [reduceCtorEq, false_iff]
    rintro ⟨-, -, -, -, -, -, -, -, -, -, -, c10, -⟩; exact h10 c10
  case neg =>
  rw [if_neg h10]
  by_cases h11 : (dayBucket s (startOfDayTimestamp s.config.utc_offset a)).any (conflictsWith a b) = true
  case pos =>
    rw [if_pos h11]
    simp only [reduceCtorEq, false_iff]
    rintro ⟨-, -, -, -, -, -, -, -, -, -, -, -, c11⟩
    rw [h11] at c11; exact Bool.noConfusion c11
  case neg =>
  rw [if_neg h11]
  constructor
  · rintro -
    push_neg at h8 h9
    exact ⟨not_not.mp h1, not_not.mp h2, not_not.mp h3, not_not.mp h4, not_not.mp h5,
      not_lt.mp h6, not_le.mp h7, h8.1, h8.2, h9.1, h9.2, not_not.mp h10,
      Bool.not_eq_true _ ▸ h11⟩
  · intro _
    rfl

theorem request_ok_iff (s : State) (sender : String) (amount_sent now : Nat)
    (a b : Int) (s' : State) :
    request_meeting s sender amount_sent now a b = .ok s' ↔
      amount_sent ≠ 0 ∧ checksPass s amount_sent now a b ∧
      s' = acceptedState s sender amount_sent a b := by
  by_cases h : amount_sent = 0
  · unfold request_meeting
    rw [if_pos h]
    simp [h]
  · rw [request_meeting_cases s sender amount_sent now a b h]
    cases hf : firstFailingCheck s amount_sent now a b with
    | none =>
      rw [firstFailingCheck_none_iff] at hf
      simp only [Except.ok.injEq]
      constructor
      · intro he; exact ⟨h, hf, he.symm⟩
      · rintro ⟨-, -, he⟩; exact he.symm
    | some e =>
      have hnc : ¬ checksPass s amount_sent now a b := by
        rw [← firstFailingCheck_none_iff, hf]; simp
      simp only [reduceCtorEq, false_iff]
      rintro ⟨-, hc, -⟩; exact hnc hc

theorem handle_stake_run (s : State) (sender : String) (now : Nat) (day : Int)
    (i : Nat) (act : StakeAction) (meetings : List Meeting)
    (hs : sender = s.admin) (hcal : s.calendar day = some meetings)
    (hlen : i < meetings.length)
    (hfin : (meetings.getD i default).end_time < (now : Int))
    (hstake : (meetings.getD i default).amount_staked ≠ 0) :
    handle_stake s sender now day i act =
      match act with
      | .Return =>
        .ok (resolvedState s day meetings i,
          [⟨(meetings.getD i default).requester,
            (meetings.getD i default).amount_staked, s.config.denom⟩])
      | .FullSlash =>
        .ok (resolvedState s day meetings i,
          [⟨s.admin, (meetings.getD i default).amount_staked, s.config.denom⟩])
      | .PartialSlash minutes_late =>
        if minutes_late > storedDurationMinutes (meetings.getD i default) then
          .error .MinutesLateCannotExceedDurationOfMeeting
        else
          .ok (resolvedState s day meetings i,
            [⟨(meetings.getD i default).requester,
              (meetings.getD i default).amount_staked -
                (meetings.getD i default).amount_staked * minutes_late /
                  storedDurationMinutes (meetings.getD i default), s.config.denom⟩,
             ⟨s.admin,
              (meetings.getD i default).amount_staked * minutes_late /
                storedDurationMinutes (meetings.getD i default), s.config.denom⟩]) := by
  unfold handle_stake
  rw [if_neg (not_ne_iff.mpr hs)]
  simp only [hcal]
  rw [if_neg (by omega : ¬ meetings.length ≤ i),
      if_neg (by omega : ¬ ((now : Int) ≤ (meetings.getD i default).end_time)),
      if_neg hstake]

theorem handle_stake_ok_inv (s : State) (sender : String) (now : Nat)
    (day : Int) (i : Nat) (act : StakeAction) (s' : State) (msgs : List BankMsg)
    (h : handle_stake s sender now day i act = .ok (s', msgs)) :
    sender = s.admin ∧ ∃ meetings, s.calendar day = some meetings ∧
      i < meetings.length ∧
      (meetings.getD i default).end_time < (now : Int) ∧
      (meetings.getD i default).amount_staked ≠ 0 ∧
      s' = resolvedState s day meetings i := by
  unfold handle_stake at h
  split at h
  · exact absurd h (by simp)
  next hs =>
  push_neg at hs
  split at h
  · exact absurd h (by simp)
  next meetings hcal =>
  split at h
  · exact absurd h (by simp)
  next hlen =>
  split at h
  · exact absurd h (by simp)
  next hfin =>
  split at h
  · exact absurd h (by simp)
  next hstake =>
  refine ⟨hs, meetings, hcal, by omega, by omega, hstake, ?_⟩
  split at h
  · exact (congrArg Prod.fst (Except.ok.inj h)).symm
  · exact (congrArg Prod.fst (Except.ok.inj h)).symm
  · split at h
    · exact absurd h (by simp)
    · exact (congrArg Prod.fst (Except.ok.inj h)).symm

/-- The pairwise guarantee the conflict loop actually enforces between an
earlier-stored meeting and a later-inserted one: at insertion time the code
rejected `earlier.start <= later.start < earlier.end` and
`earlier.start < later.end <= earlier.end`. -/
def checkedNoConflict (earlier later : Meeting) : Prop :=
  conflictsWith later.start_time later.end_time earlier = false

/-- Every Day Bucket of a reachable state is pairwise checked: each meeting
passed the conflict loop against all meetings inserted before it. -/
theorem reachable_bucket_pairwise (s : State) (hs : ReachableCal s) :
    ∀ k, (dayBucket s k).Pairwise checkedNoConflict := by
  induction hs with
  | init cfg admin => intro k; simp [dayBucket]
  | step s s' sender amount_sent now a b hr hok ih =>
    rw [request_ok_iff] at hok
    obtain ⟨h0, hcp, rfl⟩ := hok
    obtain ⟨-, -, -, -, -, -, -, -, -, -, -, -, hany⟩ := hcp
    intro k
    unfold acceptedState saveBucket dayBucket
    by_cases hk : k = startOfDayTimestamp s.config.utc_offset a
    · subst hk
      simp only [if_pos rfl, eq_self_iff_true, if_true, Option.getD_some]
      rw [List.pairwise_append]
      refine ⟨ih _, by simp, ?_⟩
      intro m hm x hx
      simp only [List.mem_singleton] at hx
      subst hx
      rw [List.any_eq_false] at hany
      unfold checkedNoConflict newMeeting
      simpa using hany m hm
    · simp only [if_neg hk]
      exact ih k

/-- A sample configuration used by concrete witnesses: daily window
09:00-17:00 local, price 10 per minute, UTC offset 0. -/
def exCfg : Config := ⟨10, 0, 32400, 61200, "ujuno"⟩

/-- The freshly instantiated state for `exCfg` (empty calendar). -/
def exState0 : State := ⟨exCfg, fun _ => none, "admin"⟩

/-- C1 counterexample: from the empty calendar, accept 10:00-10:10 (stake 100)
and then 09:00-11:00 (stake 1200).  The second interval strictly contains the
first, the conflict loop does not detect it, and the reachable state stores
two overlapping meetings in the same Day Bucket. -/
theorem C1_counterexample :
    ReachableCal (acceptedState (acceptedState exState0 "alice" 100 36000 36600)
      "bob" 1200 32400 39600) ∧
    (dayBucket (acceptedState (acceptedState exState0 "alice" 100 36000 36600)
      "bob" 1200 32400 39600) 0).length = 2 ∧
    intervalsOverlap
      ((dayBucket (acceptedState (acceptedState exState0 "alice" 100 36000 36600)
        "bob" 1200 32400 39600) 0).getD 0 default).start_time
      ((dayBucket (acceptedState (acceptedState exState0 "alice" 100 36000 36600)
        "bob" 1200 32400 39600) 0).getD 0 default).end_time
      ((dayBucket (acceptedState (acceptedState exState0 "alice" 100 36000 36600)
        "bob" 1200 32400 39600) 0).getD 1 default).start_time
      ((dayBucket (acceptedState (acceptedState exState0 "alice" 100 36000 36600)
        "bob" 1200 32400 39600) 0).getD 1 default).end_time := by
  refine ⟨?_, by decide, by decide⟩
  exact ReachableCal.step _ _ "bob" 1200 0 32400 39600
    (ReachableCal.step _ _ "alice" 100 0 36000 36600
      (ReachableCal.init exCfg "admin") rfl) rfl

/-- C1 (amended): in every state reachable from an empty calendar by
successful `request_meeting` operations, two meetings stored in the same Day
Bucket can only overlap when the later-inserted one strictly contains the
earlier-inserted one (strictly earlier start AND strictly later end); in
particular neither endpoint of the later meeting lies inside the earlier
meeting's half-open interval. -/
theorem C1_overlap_only_strict_containment (s : State) (hs : ReachableCal s)
    (k : Int) (i j : Nat) (hij : i < j) (hj : j < (dayBucket s k).length)
    (hov : intervalsOverlap
      ((dayBucket s k).getD i default).start_time
      ((dayBucket s k).getD i default).end_time
      ((dayBucket s k).getD j default).start_time
      ((dayBucket s k).getD j default).end_time) :
    ((dayBucket s k).getD j default).start_time <
      ((dayBucket s k).getD i default).start_time ∧
    ((dayBucket s k).getD i default).end_time <
      ((dayBucket s k).getD j default).end_time := by
  have hp := reachable_bucket_pairwise s hs k
  rw [List.pairwise_iff_getElem] at hp
  have hcc := hp i j (by omega) hj hij
  rw [List.getD_eq_getElem _ default (by omega : i < (dayBucket s k).length),
      List.getD_eq_getElem _ default hj] at hov ⊢
  unfold checkedNoConflict conflictsWith at hcc
  unfold intervalsOverlap at hov
  rw [max_lt_iff, lt_min_iff] at hov
  simp only [Bool.or_eq_false_iff, Bool.and_eq_false_iff, decide_eq_false_iff_not,
    not_le, not_lt] at hcc
  omega

/-- C1 witness for the amended theorem: in the concrete reachable state of
the counterexample, meetings 0 and 1 of bucket 0 overlap, and the theorem
yields the strict containment `32400 < 36000` and `36600 < 39600`. -/
theorem C1_overlap_only_strict_containment_witness :
    ((dayBucket (acceptedState (acceptedState exState0 "alice" 100 36000 36600)
      "bob" 1200 32400 39600) 0).getD 1 default).start_time <
      ((dayBucket (acceptedState (acceptedState exState0 "alice" 100 36000 36600)
        "bob" 1200 32400 39600) 0).getD 0 default).start_time ∧
    ((dayBucket (acceptedState (acceptedState exState0 "alice" 100 36000 36600)
      "bob" 1200 32400 39600) 0).getD 0 default).end_time <
      ((dayBucket (acceptedState (acceptedState exState0 "alice" 100 36000 36600)
        "bob" 1200 32400 39600) 0).getD 1 default).end_time :=
  C1_overlap_only_strict_containment
    (acceptedState (acceptedState exState0 "alice" 100 36000 36600) "bob" 1200 32400 39600)
    (ReachableCal.step _ _ "bob" 1200 0 32400 39600
      (ReachableCal.step _ _ "alice" 100 0 36000 36600
        (ReachableCal.init exCfg "admin") rfl) rfl)
    0 0 1 (by decide) (by decide) (by decide)

/-- C2: once `handle_stake` has succeeded on a `(day, meeting_index)` slot,
any later `handle_stake` call by the authority on the same slot, at any later
block time and with any of the three actions, fails with `StakeAlreadyHandled`:
resolution is exactly-once. -/
theorem C2_resolution_exactly_once (s s' : State) (sender sender2 : String)
    (now now2 : Nat) (day : Int) (i : Nat) (act act2 : StakeAction)
    (msgs : List BankMsg)
    (h : handle_stake s sender now day i act = .ok (s', msgs))
    (hsender2 : sender2 = s'.admin) (hnow : now ≤ now2) :
    handle_stake s' sender2 now2 day i act2 = .error .StakeAlreadyHandled := by
  obtain ⟨hs, meetings, hcal, hlen, hfin, hstake, rfl⟩ :=
    handle_stake_ok_inv _ _ _ _ _ _ _ _ h
  have hcal' : (resolvedState s day meetings i).calendar day =
      some (meetings.set i { meetings.getD i default with amount_staked := 0 }) := by
    unfold resolvedState saveBucket
    simp
  have hget : (meetings.set i
      { meetings.getD i default with amount_staked := 0 }).getD i default =
      { meetings.getD i default with amount_staked := 0 } := by
    rw [List.getD_eq_getElem?_getD, List.getElem?_set_eq_of_lt _ (by omega),
      Option.getD_some]
  have hend : ({ meetings.getD i default with amount_staked := 0 } : Meeting).end_time =
      (meetings.getD i default).end_time := rfl
  unfold handle_stake
  rw [if_neg (not_ne_iff.mpr hsender2)]
  simp only [hcal']
  rw [if_neg (by rw [List.length_set]; omega :
    ¬ (meetings.set i { meetings.getD i default with amount_staked := 0 }).length ≤ i)]
  rw [hget, hend]
  rw [if_neg (by omega : ¬ ((now2 : Int) ≤ (meetings.getD i default).end_time))]
  rw [if_pos rfl]

/-- C2 witness: book 10:00-10:30 (stake 300), resolve it with `Return` at
time 40000; a later `FullSlash` at time 40001 yields `StakeAlreadyHandled`. -/
theorem C2_resolution_exactly_once_witness :
    handle_stake
      (resolvedState (acceptedState exState0 "alice" 300 36000 37800) 0
        (dayBucket (acceptedState exState0 "alice" 300 36000 37800) 0) 0)
      "admin" 40001 0 0 .FullSlash = .error .StakeAlreadyHandled :=
  C2_resolution_exactly_once
    (acceptedState exState0 "alice" 300 36000 37800)
    (resolvedState (acceptedState exState0 "alice" 300 36000 37800) 0
      (dayBucket (acceptedState exState0 "alice" 300 36000 37800) 0) 0)
    "admin" "admin" 40000 40001 0 0 .Return .FullSlash
    [⟨"alice", 300, "ujuno"⟩] rfl rfl (by omega)

theorem storedDurationMinutes_eq_tdiv (m : Meeting)
    (h1 : 0 ≤ m.end_time - m.start_time)
    (h2 : m.end_time - m.start_time < 86400) :
    storedDurationMinutes m = ((m.end_time - m.start_time).tdiv 60).toNat := by
  unfold storedDurationMinutes asU32
  rw [Int.tdiv_eq_ediv h1 (by omega)]
  omega

theorem handle_stake_run_partial (s : State) (sender : String) (now : Nat)
    (day : Int) (i ml : Nat) (meetings : List Meeting)
    (hs : sender = s.admin) (hcal : s.calendar day = some meetings)
    (hlen : i < meetings.length)
    (hfin : (meetings.getD i default).end_time < (now : Int))
    (hstake : (meetings.getD i default).amount_staked ≠ 0) :
    handle_stake s sender now day i (.PartialSlash ml) =
      if ml > storedDurationMinutes (meetings.getD i default) then
        .error .MinutesLateCannotExceedDurationOfMeeting
      else
        .ok (resolvedState s day meetings i,
          [⟨(meetings.getD i default).requester,
            (meetings.getD i default).amount_staked -
              (meetings.getD i default).amount_staked * ml /
                storedDurationMinutes (meetings.getD i default), s.config.denom⟩,
           ⟨s.admin,
            (meetings.getD i default).amount_staked * ml /
              storedDurationMinutes (meetings.getD i default), s.config.denom⟩]) := by
  rw [handle_stake_run s sender now day i (.PartialSlash ml) meetings hs hcal hlen hfin hstake]

/-- C3: for a resolvable meeting with stake `S > 0` and whole-minute duration
`D = (end_time - start_time) / 60`, `PartialSlash` with `minutes_late ≤ D`
emits exactly two payout instructions — `S - S * minutes_late / D` (floor) to
the requester and `S * minutes_late / D` to the authority — whose amounts sum
to `S`; while `minutes_late > D` fails with
`MinutesLateCannotExceedDurationOfMeeting`. -/
theorem C3_partial_slash_payout (s : State) (sender : String) (now : Nat)
    (day : Int) (i ml : Nat) (meetings : List Meeting) (D : Nat)
    (hs : sender = s.admin) (hcal : s.calendar day = some meetings)
    (hlen : i < meetings.length)
    (hfin : (meetings.getD i default).end_time < (now : Int))
    (hS : 0 < (meetings.getD i default).amount_staked)
    (hd1 : 60 ≤ (meetings.getD i default).end_time - (meetings.getD i default).start_time)
    (hd2 : (meetings.getD i default).end_time - (meetings.getD i default).start_time < 86400)
    (hD : D = (((meetings.getD i default).end_time -
      (meetings.getD i default).start_time).tdiv 60).toNat) :
    (ml ≤ D →
      handle_stake s sender now day i (.PartialSlash ml) =
        .ok (resolvedState s day meetings i,
          [⟨(meetings.getD i default).requester,
            (meetings.getD i default).amount_staked -
              (meetings.getD i default).amount_staked * ml / D, s.config.denom⟩,
           ⟨s.admin,
            (meetings.getD i default).amount_staked * ml / D, s.config.denom⟩]) ∧
      (meetings.getD i default).amount_staked * ml / D +
        ((meetings.getD i default).amount_staked -
          (meetings.getD i default).amount_staked * ml / D) =
        (meetings.getD i default).amount_staked) ∧
    (D < ml →
      handle_stake s sender now day i (.PartialSlash ml) =
        .error .MinutesLateCannotExceedDurationOfMeeting) := by
  have hsd : storedDurationMinutes (meetings.getD i default) = D := by
    rw [storedDurationMinutes_eq_tdiv _ (by omega) hd2, hD]
  have hDpos : 0 < D := by
    rw [hD, Int.tdiv_eq_ediv (by omega) (by omega)]
    omega
  have hrun := handle_stake_run_partial s sender now day i ml meetings
    hs hcal hlen hfin (by omega)
  rw [hsd] at hrun
  constructor
  · intro hml
    have hslash : (meetings.getD i default).amount_staked * ml / D ≤
        (meetings.getD i default).amount_staked := by
      calc (meetings.getD i default).amount_staked * ml / D ≤
          (meetings.getD i default).amount_staked * D / D :=
            Nat.div_le_div_right (Nat.mul_le_mul_left _ hml)
        _ = (meetings.getD i default).amount_staked := Nat.mul_div_cancel _ hDpos
    refine ⟨?_, by omega⟩
    rw [hrun]
    rw [if_neg (by omega : ¬ ml > D)]
  · intro hml
    rw [hrun]
    rw [if_pos (by omega : ml > D)]

/-- C3 witness: on the 30-minute meeting with stake 300, `PartialSlash 10`
pays 200 back to the requester and 100 to the authority (100 + 200 = 300),
and `PartialSlash 31` fails with `MinutesLateCannotExceedDurationOfMeeting`. -/
theorem C3_partial_slash_payout_witness :
    (handle_stake (acceptedState exState0 "alice" 300 36000 37800) "admin"
        40000 0 0 (.PartialSlash 10) =
      .ok (resolvedState (acceptedState exState0 "alice" 300 36000 37800) 0
            (dayBucket (acceptedState exState0 "alice" 300 36000 37800) 0) 0,
        [⟨"alice", 200, "ujuno"⟩, ⟨"admin", 100, "ujuno"⟩]) ∧
      100 + 200 = 300) ∧
    handle_stake (acceptedState exState0 "alice" 300 36000 37800) "admin"
        40000 0 0 (.PartialSlash 31) =
      .error .MinutesLateCannotExceedDurationOfMeeting := by
  have h10 := (C3_partial_slash_payout (acceptedState exState0 "alice" 300 36000 37800)
    "admin" 40000 0 0 10 (dayBucket (acceptedState exState0 "alice" 300 36000 37800) 0)
    30 rfl (by decide) (by decide) (by decide) (by decide) (by decide) (by decide)
    (by decide)).1 (by decide)
  have h31 := (C3_partial_slash_payout (acceptedState exState0 "alice" 300 36000 37800)
    "admin" 40000 0 0 31 (dayBucket (acceptedState exState0 "alice" 300 36000 37800) 0)
    30 rfl (by decide) (by decide) (by decide) (by decide) (by decide) (by decide)
    (by decide)).2 (by decide)
  exact ⟨⟨h10.1, h10.2⟩, h31⟩

/-- C4: with every earlier validation passing (payment attached, both
timestamps representable, same local day, minute-aligned, future start,
positive duration, both ends inside the daily window), the request is accepted
only when the attached amount equals `duration_minutes * price_per_minute`
exactly; any other amount fails with `InvalidStakeAmountSent` carrying that
expected amount; and on acceptance the stored meeting's `amount_staked` equals
the paid amount. -/
theorem C4_exact_payment (s : State) (sender : String) (amount_sent now : Nat)
    (a b : Int)
    (h0 : amount_sent ≠ 0)
    (h1 : inChronoRange a) (h2 : inChronoRange b)
    (h3 : localDay s.config.utc_offset a = localDay s.config.utc_offset b)
    (h4 : sodOf s.config.utc_offset a % 60 = 0)
    (h5 : sodOf s.config.utc_offset b % 60 = 0)
    (h6 : (now : Int) ≤ a)
    (h7 : sodOf s.config.utc_offset a < sodOf s.config.utc_offset b)
    (h8 : (s.config.start_time : Int) ≤ sodOf s.config.utc_offset a ∧
      sodOf s.config.utc_offset a ≤ (s.config.end_time : Int))
    (h9 : (s.config.start_time : Int) ≤ sodOf s.config.utc_offset b ∧
      sodOf s.config.utc_offset b ≤ (s.config.end_time : Int)) :
    (amount_sent ≠ durationMinutes s.config.utc_offset a b * s.config.price_per_minute →
      request_meeting s sender amount_sent now a b =
        .error (.InvalidStakeAmountSent
          (durationMinutes s.config.utc_offset a b * s.config.price_per_minute))) ∧
    (∀ s', request_meeting s sender amount_sent now a b = .ok s' →
      amount_sent = durationMinutes s.config.utc_offset a b * s.config.price_per_minute ∧
      dayBucket s' (startOfDayTimestamp s.config.utc_offset a) =
        dayBucket s (startOfDayTimestamp s.config.utc_offset a) ++
          [newMeeting sender amount_sent a b] ∧
      (newMeeting sender amount_sent a b).amount_staked = amount_sent) := by
  constructor
  · intro hne
    rw [request_meeting_cases s sender amount_sent now a b h0]
    have hff : firstFailingCheck s amount_sent now a b =
        some (.InvalidStakeAmountSent
          (durationMinutes s.config.utc_offset a b * s.config.price_per_minute)) := by
      unfold firstFailingCheck
      rw [if_neg (not_not_intro h1), if_neg (not_not_intro h2),
        if_neg (not_not_intro h3), if_neg (not_not_intro h4),
        if_neg (not_not_intro h5), if_neg (not_lt.mpr h6), if_neg (not_le.mpr h7),
        if_neg (by omega : ¬ (sodOf s.config.utc_offset a < (s.config.start_time : Int) ∨
          sodOf s.config.utc_offset a > (s.config.end_time : Int))),
        if_neg (by omega : ¬ (sodOf s.config.utc_offset b < (s.config.start_time : Int) ∨
          sodOf s.config.utc_offset b > (s.config.end_time : Int))),
        if_pos hne]
    rw [hff]
  · intro s' hok
    rw [request_ok_iff] at hok
    obtain ⟨-, hcp, rfl⟩ := hok
    obtain ⟨-, -, -, -, -, -, -, -, -, -, -, hpay, -⟩ := hcp
    refine ⟨hpay, ?_, rfl⟩
    unfold acceptedState saveBucket dayBucket
    simp

/-- C4 witness: for the 30-minute slot at price 10 per minute, paying 299
fails with `InvalidStakeAmountSent 300`. -/
theorem C4_exact_payment_witness :
    request_meeting exState0 "alice" 299 0 36000 37800 =
      .error (.InvalidStakeAmountSent 300) :=
  (C4_exact_payment exState0 "alice" 299 0 36000 37800 (by decide) (by decide)
    (by decide) (by decide) (by decide) (by decide) (by decide) (by decide)
    (by decide) (by decide)).1 (by decide)

/-- C5: with every validation up to and including the payment check passing,
the request fails with `MeetingConflictExists` iff some existing meeting `m`
in the target Day Bucket satisfies
`m.start_time <= new.start < m.end_time` or `m.start_time < new.end <= m.end_time`;
when no existing meeting satisfies either disjunct, the request is accepted
and the new meeting is appended to the bucket. -/
theorem C5_conflict_characterization (s : State) (sender : String)
    (amount_sent now : Nat) (a b : Int)
    (h0 : amount_sent ≠ 0)
    (h1 : inChronoRange a) (h2 : inChronoRange b)
    (h3 : localDay s.config.utc_offset a = localDay s.config.utc_offset b)
    (h4 : sodOf s.config.utc_offset a % 60 = 0)
    (h5 : sodOf s.config.utc_offset b % 60 = 0)
    (h6 : (now : Int) ≤ a)
    (h7 : sodOf s.config.utc_offset a < sodOf s.config.utc_offset b)
    (h8 : (s.config.start_time : Int) ≤ sodOf s.config.utc_offset a ∧
      sodOf s.config.utc_offset a ≤ (s.config.end_time : Int))
    (h9 : (s.config.start_time : Int) ≤ sodOf s.config.utc_offset b ∧
      sodOf s.config.utc_offset b ≤ (s.config.end_time : Int))
    (h10 : amount_sent = durationMinutes s.config.utc_offset a b * s.config.price_per_minute) :
    (request_meeting s sender amount_sent now a b = .error .MeetingConflictExists ↔
      ∃ m ∈ dayBucket s (startOfDayTimestamp s.config.utc_offset a),
        (m.start_time ≤ a ∧ a < m.end_time) ∨ (m.start_time < b ∧ b ≤ m.end_time)) ∧
    ((¬ ∃ m ∈ dayBucket s (startOfDayTimestamp s.config.utc_offset a),
        (m.start_time ≤ a ∧ a < m.end_time) ∨ (m.start_time < b ∧ b ≤ m.end_time)) →
      request_meeting s sender amount_sent now a b =
        .ok (acceptedState s sender amount_sent a b)) := by
  have hexists : (dayBucket s (startOfDayTimestamp s.config.utc_offset a)).any
      (conflictsWith a b) = true ↔
      ∃ m ∈ dayBucket s (startOfDayTimestamp s.config.utc_offset a),
        (m.start_time ≤ a ∧ a < m.end_time) ∨ (m.start_time < b ∧ b ≤ m.end_time) := by
    rw [List.any_eq_true]
    unfold conflictsWith
    simp
  rw [request_meeting_cases s sender amount_sent now a b h0]
  have hff : firstFailingCheck s amount_sent now a b =
      (if (dayBucket s (startOfDayTimestamp s.config.utc_offset a)).any
          (conflictsWith a b) then some .MeetingConflictExists else none) := by
    unfold firstFailingCheck
    rw [if_neg (not_not_intro h1), if_neg (not_not_intro h2),
      if_neg (not_not_intro h3), if_neg (not_not_intro h4),
      if_neg (not_not_intro h5), if_neg (not_lt.mpr h6), if_neg (not_le.mpr h7),
      if_neg (by omega : ¬ (sodOf s.config.utc_offset a < (s.config.start_time : Int) ∨
        sodOf s.config.utc_offset a > (s.config.end_time : Int))),
      if_neg (by omega : ¬ (sodOf s.config.utc_offset b < (s.config.start_time : Int) ∨
        sodOf s.config.utc_offset b > (s.config.end_time : Int))),
      if_neg (not_not_intro h10)]
  rw [hff]
  by_cases hc : (dayBucket s (startOfDayTimestamp s.config.utc_offset a)).any
      (conflictsWith a b) = true
  · rw [if_pos hc]
    rw [hexists] at hc
    exact ⟨by simp [hc], fun hn => absurd hc hn⟩
  · rw [if_neg hc]
    rw [Bool.not_eq_true] at hc
    constructor
    · constructor
      · intro hcontra; exact absurd hcontra (by simp)
      · intro he
        rw [← hexists] at he
        rw [hc] at he; exact absurd he (by simp)
    · intro _; rfl

/-- C5 witness: with 10:00-10:30 already booked, a request for 10:15-10:45
(stake 300) is rejected with `MeetingConflictExists`. -/
theorem C5_conflict_characterization_witness :
    request_meeting (acceptedState exState0 "alice" 300 36000 37800)
      "bob" 300 0 36900 38700 = .error .MeetingConflictExists :=
  ((C5_conflict_characterization (acceptedState exState0 "alice" 300 36000 37800)
    "bob" 300 0 36900 38700 (by decide) (by decide) (by decide) (by decide)
    (by decide) (by decide) (by decide) (by decide) (by decide) (by decide)
    (by decide)).1).mpr
    (by decide)

/-- Modelled from the spec (§3 "Day Bucket", §4.1 step 9): the *local midnight
instant* of the calendar day containing `t` — the absolute timestamp at which
00:00 local time occurs on `t`'s local day under the fixed `utc_offset`
(local midnight has local naive second count `localDay * 86400`, hence occurs
at absolute timestamp `localDay * 86400 - off`). -/
def localMidnightInstant (off t : Int) : Int := localDay off t * 86400 - off

/-- Configuration with a nonzero east offset (+01:00) for the C6 analysis. -/
def exCfgEast : Config := ⟨10, 3600, 32400, 61200, "ujuno"⟩

/-- Fresh state for `exCfgEast`. -/
def exStateEast : State := ⟨exCfgEast, fun _ => none, "admin"⟩

/-- C6 counterexample: under `utc_offset = 3600`, the accepted slot
10:00-10:30 local (absolute 32400-34200) is stored under key 0 — the local
naive midnight re-interpreted as UTC — while the actual instant of local
midnight is -3600; the bucket at the claimed key is absent. -/
theorem C6_counterexample :
    request_meeting exStateEast "alice" 300 0 32400 34200 =
      .ok (acceptedState exStateEast "alice" 300 32400 34200) ∧
    (acceptedState exStateEast "alice" 300 32400 34200).calendar
      (localMidnightInstant 3600 32400) = none ∧
    (acceptedState exStateEast "alice" 300 32400 34200).calendar
      (startOfDayTimestamp 3600 32400) = some [newMeeting "alice" 300 32400 34200] ∧
    localMidnightInstant 3600 32400 = -3600 ∧
    startOfDayTimestamp 3600 32400 = 0 :=
  ⟨rfl, by decide, by decide, by decide, by decide⟩

/-- C6 (amended): on acceptance, `request_meeting` persists the new meeting in
the Day Bucket whose key is the slot's local calendar day's midnight *as a
naive local timestamp re-interpreted in UTC*, i.e. the instant of local
midnight PLUS the configured `utc_offset` (the two keys coincide only when
`utc_offset = 0`). -/
theorem C6_bucket_key (s : State) (sender : String) (amount_sent now : Nat)
    (a b : Int) (s' : State)
    (h : request_meeting s sender amount_sent now a b = .ok s') :
    s'.calendar (startOfDayTimestamp s.config.utc_offset a) =
      some (dayBucket s (startOfDayTimestamp s.config.utc_offset a) ++
        [newMeeting sender amount_sent a b]) ∧
    startOfDayTimestamp s.config.utc_offset a =
      localMidnightInstant s.config.utc_offset a + s.config.utc_offset := by
  rw [request_ok_iff] at h
  obtain ⟨-, -, rfl⟩ := h
  constructor
  · unfold acceptedState saveBucket
    simp
  · unfold startOfDayTimestamp localMidnightInstant
    omega

/-- C6 witness for the amended theorem, at the concrete +01:00 run: the bucket
is saved under key `0 = (-3600) + 3600`. -/
theorem C6_bucket_key_witness :
    (acceptedState exStateEast "alice" 300 32400 34200).calendar
      (startOfDayTimestamp 3600 32400) =
      some (dayBucket exStateEast (startOfDayTimestamp 3600 32400) ++
        [newMeeting "alice" 300 32400 34200]) ∧
    startOfDayTimestamp 3600 32400 =
      localMidnightInstant 3600 32400 + 3600 :=
  C6_bucket_key exStateEast "alice" 300 0 32400 34200
    (acceptedState exStateEast "alice" 300 32400 34200) rfl

/-- C7: with the checks preceding it passing (payment attached, both
timestamps representable, same local day, both minute-aligned),
`request_meeting` fails with `StartTimeMustBeInFuture` exactly when
`now > start_time`; in particular `now = start_time` passes the check. -/
theorem C7_future_start_check (s : State) (sender : String)
    (amount_sent now : Nat) (a b : Int)
    (h0 : amount_sent ≠ 0)
    (h1 : inChronoRange a) (h2 : inChronoRange b)
    (h3 : localDay s.config.utc_offset a = localDay s.config.utc_offset b)
    (h4 : sodOf s.config.utc_offset a % 60 = 0)
    (h5 : sodOf s.config.utc_offset b % 60 = 0) :
    request_meeting s sender amount_sent now a b =
      .error .StartTimeMustBeInFuture ↔ a < (now : Int) := by
  rw [request_meeting_cases s sender amount_sent now a b h0]
  unfold firstFailingCheck
  rw [if_neg (not_not_intro h1), if_neg (not_not_intro h2),
    if_neg (not_not_intro h3), if_neg (not_not_intro h4), if_neg (not_not_intro h5)]
  by_cases h6 : (now : Int) > a
  · rw [if_pos h6]
    simpa using h6
  · rw [if_neg h6]
    constructor
    · intro hcontra
      split_ifs at hcontra <;> simp_all
    · intro hcontra
      exact absurd hcontra h6

/-- C7 witness: at `now = 40000 > 36000 = start_time` the slot request fails
with `StartTimeMustBeInFuture` (iff instantiated at a concrete input). -/
theorem C7_future_start_check_witness :
    (request_meeting exState0 "alice" 300 40000 36000 37800 =
      .error .StartTimeMustBeInFuture ↔ (36000 : Int) < (40000 : Nat)) :=
  C7_future_start_check exState0 "alice" 300 40000 36000 37800 (by decide)
    (by decide) (by decide) (by decide) (by decide) (by decide)

/-- C8: whenever a payment is attached, `request_meeting` is exactly the
spec's ordered validation chain: it returns the error of the *first* failing
check in the order conversion, same-local-day, start rounding, end rounding,
future start, start-before-end, start window, end window, exact payment,
conflict (`firstFailingCheck`, written from the spec's list), and the
accepting update when every check passes. -/
theorem C8_validation_order (s : State) (sender : String)
    (amount_sent now : Nat) (a b : Int) (h : amount_sent ≠ 0) :
    request_meeting s sender amount_sent now a b =
      match firstFailingCheck s amount_sent now a b with
      | some e => .error e
      | none => .ok (acceptedState s sender amount_sent a b) :=
  request_meeting_cases s sender amount_sent now a b h

/-- C8 witness: a request failing several checks at once (cross-day span,
unaligned times, past start, wrong amount) returns the first listed error,
`StartAndEndTimeNotOnSameDay`. -/
theorem C8_validation_order_witness :
    request_meeting exState0 "alice" 7 100000 36001 123456 =
      match firstFailingCheck exState0 7 100000 36001 123456 with
      | some e => .error e
      | none => .ok (acceptedState exState0 "alice" 7 36001 123456) :=
  C8_validation_order exState0 "alice" 7 100000 36001 123456 (by decide)

/-- C9: meetings are never deleted.  A successful `request_meeting` leaves the
configuration, the admin and every other Day Bucket untouched and only appends
the new meeting to its target bucket; a successful `handle_stake` leaves the
configuration, the admin, every other bucket and every other meeting
untouched, and rewrites only the addressed meeting, preserving its
`start_time`, `end_time` and `requester` and zeroing its `amount_staked`. -/
theorem C9_frame_effects (s : State) :
    (∀ sender amount_sent now a b s',
      request_meeting s sender amount_sent now a b = .ok s' →
        s'.config = s.config ∧ s'.admin = s.admin ∧
        (∀ k, k ≠ startOfDayTimestamp s.config.utc_offset a →
          s'.calendar k = s.calendar k) ∧
        s'.calendar (startOfDayTimestamp s.config.utc_offset a) =
          some (dayBucket s (startOfDayTimestamp s.config.utc_offset a) ++
            [newMeeting sender amount_sent a b])) ∧
    (∀ sender now day i act s' msgs,
      handle_stake s sender now day i act = .ok (s', msgs) →
        s'.config = s.config ∧ s'.admin = s.admin ∧
        (∀ k, k ≠ day → s'.calendar k = s.calendar k) ∧
        ∃ meetings, s.calendar day = some meetings ∧ i < meetings.length ∧
          s'.calendar day = some (meetings.set i
            { start_time := (meetings.getD i default).start_time,
              end_time := (meetings.getD i default).end_time,
              requester := (meetings.getD i default).requester,
              amount_staked := 0 }) ∧
          ∀ j, j ≠ i →
            (meetings.set i
              { meetings.getD i default with amount_staked := 0 }).getD j default =
              meetings.getD j default) := by
  constructor
  · intro sender amount_sent now a b s' hok
    rw [request_ok_iff] at hok
    obtain ⟨-, -, rfl⟩ := hok
    refine ⟨rfl, rfl, ?_, ?_⟩
    · intro k hk
      unfold acceptedState saveBucket
      simp [hk]
    · unfold acceptedState saveBucket
      simp
  · intro sender now day i act s' msgs hok
    obtain ⟨-, meetings, hcal, hlen, -, -, rfl⟩ :=
      handle_stake_ok_inv _ _ _ _ _ _ _ _ hok
    refine ⟨rfl, rfl, ?_, meetings, hcal, hlen, ?_, ?_⟩
    · intro k hk
      unfold resolvedState saveBucket
      simp [hk]
    · unfold resolvedState saveBucket
      simp
    · intro j hj
      rw [List.getD_eq_getElem?_getD, List.getD_eq_getElem?_getD,
        List.getElem?_set_ne (by omega), ← List.getD_eq_getElem?_getD]

/-- C9 witness: for the concrete accept run, bucket 0 becomes the appended
list; for the concrete `Return` resolution, an unrelated bucket key 1234 is
untouched. -/
theorem C9_frame_effects_witness :
    (acceptedState exState0 "alice" 300 36000 37800).calendar 0 =
      some (dayBucket exState0 0 ++ [newMeeting "alice" 300 36000 37800]) ∧
    (resolvedState (acceptedState exState0 "alice" 300 36000 37800) 0
      (dayBucket (acceptedState exState0 "alice" 300 36000 37800) 0) 0).calendar 1234 =
      (acceptedState exState0 "alice" 300 36000 37800).calendar 1234 := by
  constructor
  · exact ((C9_frame_effects exState0).1 "alice" 300 0 36000 37800
      (acceptedState exState0 "alice" 300 36000 37800) rfl).2.2.2
  · exact ((C9_frame_effects (acceptedState exState0 "alice" 300 36000 37800)).2
      "admin" 40000 0 0 .Return
      (resolvedState (acceptedState exState0 "alice" 300 36000 37800) 0
        (dayBucket (acceptedState exState0 "alice" 300 36000 37800) 0) 0)
      [⟨"alice", 300, "ujuno"⟩] rfl).2.2.1 1234 (by decide)

/-- C10: every meeting created by `request_meeting` lasts at least 60 seconds
and less than a day, so the `PartialSlash` divisor
`((end_time - start_time) / 60) as u32` computed by `handle_stake` is nonzero
and the `multiply_ratio` computation never divides by zero. -/
theorem C10_created_meeting_duration (s : State) (sender : String)
    (amount_sent now : Nat) (a b : Int) (s' : State)
    (h : request_meeting s sender amount_sent now a b = .ok s') :
    60 ≤ b - a ∧ b - a < 86400 ∧
    0 < storedDurationMinutes (newMeeting sender amount_sent a b) := by
  rw [request_ok_iff] at h
  obtain ⟨-, hcp, -⟩ := h
  obtain ⟨-, -, h3, h4, h5, -, h7, -⟩ := hcp
  unfold localDay at h3
  unfold sodOf at h4 h5 h7
  have hba : 60 ≤ b - a ∧ b - a < 86400 := by omega
  refine ⟨hba.1, hba.2, ?_⟩
  show 0 < asU32 ((b - a).tdiv 60)
  unfold asU32
  rw [Int.tdiv_eq_ediv (by omega) (by omega)]
  omega

/-- C10 witness: the accepted 10:00-10:30 slot lasts 1800 seconds and its
`PartialSlash` divisor is the nonzero 30. -/
theorem C10_created_meeting_duration_witness :
    60 ≤ (37800 : Int) - 36000 ∧ (37800 : Int) - 36000 < 86400 ∧
    0 < storedDurationMinutes (newMeeting "alice" 300 36000 37800) :=
  C10_created_meeting_duration exState0 "alice" 300 0 36000 37800
    (acceptedState exState0 "alice" 300 36000 37800) rfl
